import Mathlib

/-!
Verification of the taxi-dc developer-environment orchestrator.

Shallow embedding of the repository's Python sources:
  * `src/taxi-dev-servers/modules/dns_manager.py`   (name-resolution manager)
  * `src/taxi-dev-servers/modules/mongo_manager.py` (credential manager)
  * `src/taxi-dev-servers/modules/container_manager.py` (compute, boundary only)
  * `src/taxi-dev-servers/app.py`                   (saga orchestrator)

External effects (docker commands, the restart HTTP call, nslookup, mongo
shell invocations, the wall clock) are modelled by oracle records: each
Boolean field states whether the corresponding external command succeeds in
the run under consideration, and string/nat fields carry the data the
outside world returns.  The configuration blob of dnsmasq is modelled as a
list of lines (`Config`); its byte content is `configText`.  Each operation
also returns the trace of calls it issued, so that ordering claims are
statements about the trace.
-/

/-! ## Character-list utilities (blob text, substring search) -/

/-- Executable check that the first list is a leading segment of the second
(used to model anchored regex matching and substring search). -/
def leadsWith : List Char → List Char → Bool
  | [], _ => true
  | _ :: _, [] => false
  | p :: ps, c :: cs => p = c && leadsWith ps cs

/-- Executable substring containment, modelling the Python `in` operator
on strings. -/
def containsSub (pat : List Char) : List Char → Bool
  | [] => pat.isEmpty
  | c :: cs => leadsWith pat (c :: cs) || containsSub pat cs

/-- The not-found signal that `DNSManager._verify_dns_entry` looks for in
the stderr of nslookup. -/
def notFoundSignal : List Char := "Name or service not known".toList

/-- Model of the check `"Name or service not known" in result.stderr`. -/
def containsSignal (stderr : List Char) : Bool :=
  containsSub notFoundSignal stderr

/-! ## Backup store rotation (`DNSManager._backup_config`, lines 49-52)

The snapshot directory is a set of files named `dnsmasq_{timestamp}.conf`;
we model it as a sorted duplicate-free list of timestamps.  Writing a
backup creates (or overwrites) the file for the current timestamp; the
code then sorts the glob result and unlinks everything but the last 100
(`backups[:-100]`). -/

/-- Insert a timestamp into the sorted duplicate-free file list; an equal
timestamp overwrites the existing file. -/
def insortNat (t : Nat) : List Nat → List Nat
  | [] => [t]
  | x :: xs => if t < x then t :: x :: xs else if t = x then x :: xs else x :: insortNat t xs

/-- `backups[:-100]` are unlinked: keep only the newest 100 snapshots. -/
def rotateKeep (s : List Nat) : List Nat := s.drop (s.length - 100)

/-- One snapshot write followed by rotation, as done by `_backup_config`. -/
def takeBackup (t : Nat) (store : List Nat) : List Nat :=
  rotateKeep (insortNat t store)

/-! ## The dnsmasq configuration blob -/

/-- One line of `/etc/dnsmasq.conf`: either an address record written by the
manager (`address=/<u>.taxi.sparcs.org/<ip>`) or any other configuration
text. -/
inductive ConfigLine
  | entry (u ip : String)
  | raw (s : String)
  deriving DecidableEq

/-- The configuration blob as a list of lines. -/
abbrev Config := List ConfigLine

/-- Byte content of one line. -/
def lineText : ConfigLine → List Char
  | ConfigLine.entry u ip =>
      "address=/".toList ++ u.toList ++ ".taxi.sparcs.org/".toList ++ ip.toList
  | ConfigLine.raw s => s.toList

/-- Byte content of the whole blob (lines joined by newlines), i.e. the
string returned by `cat /etc/dnsmasq.conf`. -/
def configText : Config → List Char
  | [] => []
  | [l] => lineText l
  | l :: ls => lineText l ++ '\n' :: configText ls

/-- The record a line contributes to `parse_dns_entries`, if any. -/
def entryOf : ConfigLine → Option (String × String)
  | ConfigLine.entry u ip => some (u, ip)
  | ConfigLine.raw _ => none

/-- Code-point comparison of characters, as Python compares strings. -/
def charLt (a b : Char) : Bool := a.toNat < b.toNat

/-- Lexicographic strict order on character lists. -/
def strLtChars : List Char → List Char → Bool
  | [], [] => false
  | [], _ :: _ => true
  | _ :: _, [] => false
  | a :: as, b :: bs =>
    if charLt a b then true else if charLt b a then false else strLtChars as bs

/-- Lexicographic strict order on strings by code points. -/
def strLt (a b : String) : Bool := strLtChars a.toList b.toList

/-- Boolean lexicographic order on (username, ip) pairs, as used by Python's
`sorted` on tuples. -/
def pairLe (a b : String × String) : Bool :=
  if strLt a.1 b.1 then true else if a.1 = b.1 then !(strLt b.2 a.2) else false

/-- Ordered insertion used by the model's sort. -/
def insertLe (le : α → α → Bool) (x : α) : List α → List α
  | [] => [x]
  | y :: ys => if le x y then x :: y :: ys else y :: insertLe le x ys

/-- Insertion sort used to model Python's `sorted`. -/
def insertionSort (le : α → α → Bool) : List α → List α
  | [] => []
  | x :: xs => insertLe le x (insertionSort le xs)

/-- `DNSManager.parse_dns_entries` applied to a readable blob: extract the
address records, exclude the reserved name `shared-mongo`, and return them
sorted. -/
def parse_dns_entries (cfg : Config) : List (String × String) :=
  insertionSort pairLe
    ((cfg.filterMap entryOf).filter (fun e => e.1 ≠ "shared-mongo"))

/-- The usernames visible in the name-resolution listing. -/
def dnsUsers (cfg : Config) : List String :=
  (parse_dns_entries cfg).map Prod.fst

/-- Whether `grep -v "address=/<u>.taxi.sparcs.org/"` drops this line. -/
def lineMatchesUser (u : String) : ConfigLine → Bool
  | ConfigLine.entry v _ => v = u
  | ConfigLine.raw _ => false

/-- The filtered blob produced by the removal command of
`remove_dns_entry` / `edit_dns_entry`. -/
def removeUserLines (u : String) (cfg : Config) : Config :=
  cfg.filter (fun l => !(lineMatchesUser u l))

/-! ## Oracle and state machine for one mutating DNS operation -/

/-- Outcomes of the external commands issued by one DNS operation.
`resolvedAddr` is the address that the nslookup of the verification step
actually reports on stdout; the source never reads it (it only searches
stderr for the not-found signal), and its presence in the oracle lets us
state that independence. -/
structure DnsOracle where
  parseOk : Bool
  readOk : Bool
  time : Nat
  mutateOk : Bool
  mutate2Ok : Bool
  restartOk : Bool
  verifyStderr : List Char
  resolvedAddr : String
  restoreCopyOk : Bool
  restoreRestartOk : Bool
  deriving DecidableEq

/-- Protocol steps recorded by a DNS operation. -/
inductive DnsEv
  | backupEv
  | mutateEv
  | restartEv
  | verifyEv
  | restoreEv
  deriving DecidableEq

/-- Result of one mutating DNS operation: success flag, final blob, final
snapshot store, protocol trace. -/
structure DnsRes where
  ok : Bool
  cfg : Config
  store : List Nat
  tr : List DnsEv
  deriving DecidableEq

/-- `DNSManager._backup_config`: read the blob (may fail, yielding the empty
string), write the snapshot file, rotate the store. -/
def backup_config (cfg : Config) (store : List Nat) (o : DnsOracle) :
    List Char × List Nat :=
  if o.readOk then (configText cfg, takeBackup o.time store) else ([], store)

/-- `DNSManager._restore_config`: copy the snapshot back over the blob (the
copy may fail, leaving the blob as it was), then re-run the restart call
once.  Returns the success flag and the resulting blob. -/
def restore_config (backup : Config) (o : DnsOracle) (cfg : Config) :
    Bool × Config :=
  if o.restoreCopyOk then (o.restoreRestartOk, backup) else (false, cfg)

/-- `DNSManager._verify_dns_entry`: run nslookup and report whether stderr
lacks the not-found signal.  The username and the resolved address play no
role in the decision. -/
def verify_dns_entry (_u : String) (o : DnsOracle) : Bool :=
  !(containsSignal o.verifyStderr)

/-- `DNSManager.is_entry_taken` over parsed entries. -/
def is_entry_taken (u ip : String) (entries : List (String × String)) : Bool :=
  entries.any (fun e => e.2 = ip || e.1 = u)

/-- `DNSManager.add_dns_entry`: pre-flight uniqueness check, backup, append
the record, restart, verify; on any failure past the backup, restore the
snapshot. -/
def add_dns_entry (u ip : String) (cfg : Config) (store : List Nat)
    (o : DnsOracle) : DnsRes :=
  let entries := if o.parseOk then parse_dns_entries cfg else []
  if is_entry_taken u ip entries then ⟨false, cfg, store, []⟩
  else
    let bk := backup_config cfg store o
    if bk.1.isEmpty then ⟨false, cfg, bk.2, [DnsEv.backupEv]⟩
    else
      if o.mutateOk then
        let cfg1 := cfg ++ [ConfigLine.entry u ip]
        if o.restartOk then
          if verify_dns_entry u o then
            ⟨true, cfg1, bk.2, [DnsEv.backupEv, DnsEv.mutateEv, DnsEv.restartEv, DnsEv.verifyEv]⟩
          else
            ⟨false, (restore_config cfg o cfg1).2, bk.2,
              [DnsEv.backupEv, DnsEv.mutateEv, DnsEv.restartEv, DnsEv.verifyEv, DnsEv.restoreEv]⟩
        else
          ⟨false, (restore_config cfg o cfg1).2, bk.2,
            [DnsEv.backupEv, DnsEv.mutateEv, DnsEv.restartEv, DnsEv.restoreEv]⟩
      else
        ⟨false, (restore_config cfg o cfg).2, bk.2,
          [DnsEv.backupEv, DnsEv.mutateEv, DnsEv.restoreEv]⟩

/-- `DNSManager.remove_dns_entry`: existence check, backup, filter the
record out, restart; no verification step.  On failure past the backup,
restore the snapshot. -/
def remove_dns_entry (u : String) (cfg : Config) (store : List Nat)
    (o : DnsOracle) : DnsRes :=
  let entries := if o.parseOk then parse_dns_entries cfg else []
  if !(entries.any (fun e => e.1 = u)) then ⟨false, cfg, store, []⟩
  else
    let bk := backup_config cfg store o
    if bk.1.isEmpty then ⟨false, cfg, bk.2, [DnsEv.backupEv]⟩
    else
      if o.mutateOk then
        let cfg1 := removeUserLines u cfg
        if o.restartOk then
          ⟨true, cfg1, bk.2, [DnsEv.backupEv, DnsEv.mutateEv, DnsEv.restartEv]⟩
        else
          ⟨false, (restore_config cfg o cfg1).2, bk.2,
            [DnsEv.backupEv, DnsEv.mutateEv, DnsEv.restartEv, DnsEv.restoreEv]⟩
      else
        ⟨false, (restore_config cfg o cfg).2, bk.2,
          [DnsEv.backupEv, DnsEv.mutateEv, DnsEv.restoreEv]⟩

/-- The conflict scan of `edit_dns_entry`: some other record already holds
the requested new username or new address. -/
def editConflict (old : String) (newU newIp : Option String) (oldIp : String)
    (entries : List (String × String)) : Bool :=
  entries.any (fun e =>
    !(e.1 = old) &&
      ((newU.isSome && e.1 = newU.getD old) || (newIp.isSome && e.2 = newIp.getD oldIp)))

/-- `DNSManager.edit_dns_entry`: argument check, existence and conflict
checks, backup, remove-old-then-append-new, restart, verify; on failure past
the backup, restore the snapshot. -/
def edit_dns_entry (old : String) (newU newIp : Option String) (cfg : Config)
    (store : List Nat) (o : DnsOracle) : DnsRes :=
  if newU.isNone && newIp.isNone then ⟨false, cfg, store, []⟩
  else
    let entries := if o.parseOk then parse_dns_entries cfg else []
    match entries.find? (fun e => e.1 = old) with
    | none => ⟨false, cfg, store, []⟩
    | some oldE =>
      let neu := newU.getD old
      let nip := newIp.getD oldE.2
      if editConflict old newU newIp oldE.2 entries then ⟨false, cfg, store, []⟩
      else
        let bk := backup_config cfg store o
        if bk.1.isEmpty then ⟨false, cfg, bk.2, [DnsEv.backupEv]⟩
        else
          if o.mutateOk then
            let cfgA := removeUserLines old cfg
            if o.mutate2Ok then
              let cfg1 := cfgA ++ [ConfigLine.entry neu nip]
              if o.restartOk then
                if verify_dns_entry neu o then
                  ⟨true, cfg1, bk.2,
                    [DnsEv.backupEv, DnsEv.mutateEv, DnsEv.mutateEv, DnsEv.restartEv, DnsEv.verifyEv]⟩
                else
                  ⟨false, (restore_config cfg o cfg1).2, bk.2,
                    [DnsEv.backupEv, DnsEv.mutateEv, DnsEv.mutateEv, DnsEv.restartEv,
                      DnsEv.verifyEv, DnsEv.restoreEv]⟩
              else
                ⟨false, (restore_config cfg o cfg1).2, bk.2,
                  [DnsEv.backupEv, DnsEv.mutateEv, DnsEv.mutateEv, DnsEv.restartEv, DnsEv.restoreEv]⟩
            else
              ⟨false, (restore_config cfg o cfgA).2, bk.2,
                [DnsEv.backupEv, DnsEv.mutateEv, DnsEv.mutateEv, DnsEv.restoreEv]⟩
          else
            ⟨false, (restore_config cfg o cfg).2, bk.2,
              [DnsEv.backupEv, DnsEv.mutateEv, DnsEv.restoreEv]⟩

/-- The three mutating name-resolution operations. -/
inductive DnsOp
  | add (u ip : String)
  | remove (u : String)
  | edit (old : String) (newU newIp : Option String)
  deriving DecidableEq

/-- Dispatch a mutating DNS operation. -/
def runDnsOp : DnsOp → Config → List Nat → DnsOracle → DnsRes
  | DnsOp.add u ip, cfg, store, o => add_dns_entry u ip cfg store o
  | DnsOp.remove u, cfg, store, o => remove_dns_entry u cfg store o
  | DnsOp.edit old nu nip, cfg, store, o => edit_dns_entry old nu nip cfg store o

/-! ## Credential manager (`mongo_manager.py`)

The credential store is modelled by its list of usernames.  Each mongo
shell invocation can fail; the oracle states which ones succeed and what
password `_generate_password` produces. -/

/-- Outcomes of the external calls of one MongoManager operation. -/
structure MongoOracle where
  listOk : Bool
  pwOk : Bool
  pw : String
  createOk : Bool
  dropOk : Bool
  deriving DecidableEq

/-- `MongoManager.create_user`: list the users (a failed listing skips the
existence check), generate a password, run `createUser`.  Returns the
password on success together with the new store. -/
def mongo_create_user (u : String) (db : List String) (o : MongoOracle) :
    Option String × List String :=
  let users : Option (List String) := if o.listOk then some db else none
  let already := match users with
    | some us => us.any (fun v => v = u)
    | none => false
  if already then (none, db)
  else if !o.pwOk then (none, db)
  else if o.createOk then (some o.pw, db ++ [u])
  else (none, db)

/-- `MongoManager.remove_user`: list the users (a failed or empty listing
aborts), check existence, run `dropUser`. -/
def mongo_remove_user (u : String) (db : List String) (o : MongoOracle) :
    Bool × List String :=
  let users : Option (List String) := if o.listOk then some db else none
  match users with
  | none => (false, db)
  | some us =>
    if !(us.any (fun v => v = u)) then (false, db)
    else if o.dropOk then (true, db.filter (fun v => v ≠ u)) else (false, db)

/-- `MongoManager.edit_user`: check the old name exists and the new one does
not, generate a password, create the new user, then drop the old one.  If
the drop fails the new password is still returned (with a warning) and the
old user remains. -/
def mongo_edit_user (old nu : String) (db : List String) (o : MongoOracle) :
    Option String × List String :=
  let users : Option (List String) := if o.listOk then some db else none
  match users with
  | none => (none, db)
  | some us =>
    if !(us.any (fun v => v = old)) then (none, db)
    else if us.any (fun v => v = nu) then (none, db)
    else if !o.pwOk then (none, db)
    else if !o.createOk then (none, db)
    else
      let db1 := db ++ [nu]
      if o.dropOk then (some o.pw, db1.filter (fun v => v ≠ old))
      else (some o.pw, db1)

/-! ## Compute manager boundary (`container_manager.py`)

Only the result the orchestrator observes is modelled: `add_user` returns a
password, returns a falsy value, or raises; `edit_user` returns a Boolean
or raises. -/

/-- Observable outcome of `ContainerManager.add_user`. -/
inductive ContAddRes
  | ok (pw : String)
  | failed
  | raised
  deriving DecidableEq

/-- Observable outcome of `ContainerManager.edit_user`. -/
inductive ContEditRes
  | ok
  | failed
  | raised
  deriving DecidableEq

/-- Whether the compute creation produced a password. -/
def ContAddRes.isOk : ContAddRes → Bool
  | ContAddRes.ok _ => true
  | _ => false

/-! ## Saga orchestrator (`TaxiDevCenter` in `app.py`) -/

/-- Collaborator-level calls issued by the orchestrator, in issue order.
`nr` is the name-resolution service (DNSManager), `cred` the credential
service (MongoManager), `comp` the compute service (ContainerManager). -/
inductive Ev
  | nrAdd (u ip : String)
  | nrRemove (u : String)
  | nrEdit (old : String) (newU newIp : Option String)
  | credCreate (u : String)
  | credRemove (u : String)
  | credEdit (old nu : String)
  | compAdd (u ip : String)
  | compEdit (old : String) (newU newIp : Option String)
  deriving DecidableEq

/-- Whether an orchestrator call targets the credential service. -/
def Ev.isCred : Ev → Bool
  | Ev.credCreate _ => true
  | Ev.credRemove _ => true
  | Ev.credEdit _ _ => true
  | _ => false

/-- Combined system state seen by the orchestrator: dnsmasq blob, snapshot
store, credential store. -/
structure SysSt where
  cfg : Config
  store : List Nat
  mongo : List String
  deriving DecidableEq

/-- Oracles for the external calls of one `create_user` saga, one per call
site. -/
structure CreateOracle where
  dnsAdd : DnsOracle
  mcreate : MongoOracle
  cadd : ContAddRes
  dnsRemove : DnsOracle
  mremove : MongoOracle
  deriving DecidableEq

/-- Result of one orchestrator operation: outcome, final state, trace of
collaborator calls. -/
structure SagaOut where
  ok : Bool
  st : SysSt
  tr : List Ev
  deriving DecidableEq

/-- `TaxiDevCenter.create_user`: DNS entry first, then MongoDB user, then
container; on a MongoDB failure the DNS entry is rolled back, on a
container failure (falsy result or exception) the DNS entry and then the
MongoDB user are rolled back. -/
def tdc_create_user (u ip : String) (st : SysSt) (o : CreateOracle) : SagaOut :=
  let r1 := runDnsOp (DnsOp.add u ip) st.cfg st.store o.dnsAdd
  let st1 : SysSt := ⟨r1.cfg, r1.store, st.mongo⟩
  if !r1.ok then ⟨false, st1, [Ev.nrAdd u ip]⟩
  else
    let mc := mongo_create_user u st1.mongo o.mcreate
    let st2 : SysSt := ⟨st1.cfg, st1.store, mc.2⟩
    match mc.1 with
    | none =>
      let r3 := runDnsOp (DnsOp.remove u) st2.cfg st2.store o.dnsRemove
      ⟨false, ⟨r3.cfg, r3.store, st2.mongo⟩,
        [Ev.nrAdd u ip, Ev.credCreate u, Ev.nrRemove u]⟩
    | some _ =>
      match o.cadd with
      | ContAddRes.ok _ =>
        ⟨true, st2, [Ev.nrAdd u ip, Ev.credCreate u, Ev.compAdd u ip]⟩
      | _ =>
        let r3 := runDnsOp (DnsOp.remove u) st2.cfg st2.store o.dnsRemove
        let mr := mongo_remove_user u st2.mongo o.mremove
        ⟨false, ⟨r3.cfg, r3.store, mr.2⟩,
          [Ev.nrAdd u ip, Ev.credCreate u, Ev.compAdd u ip,
            Ev.nrRemove u, Ev.credRemove u]⟩

/-- Oracles for the external calls of one `edit_user` saga. -/
structure EditOracle where
  medit : MongoOracle
  dnsEdit : DnsOracle
  cedit : ContEditRes
  meditBack : MongoOracle
  dnsEditBack : DnsOracle
  deriving DecidableEq

/-- `TaxiDevCenter.edit_user`: when the username changes, MongoDB is edited
first, then DNS, then the container; a DNS failure rolls back MongoDB, a
container failure rolls back MongoDB and then DNS (arguments swapped).
When only the IP changes, only DNS and the container are touched, and a
container failure re-invokes the DNS edit with no new values. -/
def tdc_edit_user (old : String) (newU newIp : Option String) (st : SysSt)
    (o : EditOracle) : SagaOut :=
  if newU.isNone && newIp.isNone then ⟨false, st, []⟩
  else
    match newU with
    | some nu =>
      let me := mongo_edit_user old nu st.mongo o.medit
      let st1 : SysSt := ⟨st.cfg, st.store, me.2⟩
      match me.1 with
      | none => ⟨false, st1, [Ev.credEdit old nu]⟩
      | some _ =>
        let r2 := runDnsOp (DnsOp.edit old (some nu) newIp) st1.cfg st1.store o.dnsEdit
        let st2 : SysSt := ⟨r2.cfg, r2.store, st1.mongo⟩
        if !r2.ok then
          let mb := mongo_edit_user nu old st2.mongo o.meditBack
          ⟨false, ⟨st2.cfg, st2.store, mb.2⟩,
            [Ev.credEdit old nu, Ev.nrEdit old (some nu) newIp, Ev.credEdit nu old]⟩
        else
          match o.cedit with
          | ContEditRes.ok =>
            ⟨true, st2,
              [Ev.credEdit old nu, Ev.nrEdit old (some nu) newIp,
                Ev.compEdit old (some nu) newIp]⟩
          | _ =>
            let mb := mongo_edit_user nu old st2.mongo o.meditBack
            let st3 : SysSt := ⟨st2.cfg, st2.store, mb.2⟩
            let r4 := runDnsOp (DnsOp.edit nu (some old) none) st3.cfg st3.store o.dnsEditBack
            ⟨false, ⟨r4.cfg, r4.store, st3.mongo⟩,
              [Ev.credEdit old nu, Ev.nrEdit old (some nu) newIp,
                Ev.compEdit old (some nu) newIp, Ev.credEdit nu old,
                Ev.nrEdit nu (some old) none]⟩
    | none =>
      let r1 := runDnsOp (DnsOp.edit old none newIp) st.cfg st.store o.dnsEdit
      let st1 : SysSt := ⟨r1.cfg, r1.store, st.mongo⟩
      if !r1.ok then ⟨false, st1, [Ev.nrEdit old none newIp]⟩
      else
        match o.cedit with
        | ContEditRes.ok =>
          ⟨true, st1, [Ev.nrEdit old none newIp, Ev.compEdit old none newIp]⟩
        | _ =>
          let r2 := runDnsOp (DnsOp.edit old none none) st1.cfg st1.store o.dnsEditBack
          ⟨false, ⟨r2.cfg, r2.store, st1.mongo⟩,
            [Ev.nrEdit old none newIp, Ev.compEdit old none newIp,
              Ev.nrEdit old none none]⟩

/-! ## Address validation (`validate_ip` in `dns_manager.py` / `app.py`)

`validate_ip` matches the input against the Python regex
`^10\.251\.1\.\d+$` with `re.match` and then bounds `int(ip.split('.')[-1])`
to 1..254.  Python's `$` matches at the end of the string or just before a
single newline at the end of the string, and `int` ignores surrounding
whitespace; both behaviours are modelled.  Python's `\d` and `int` also
accept every Unicode decimal digit (category Nd: `validate_ip('10.251.1.٥')`
returns True in the source), a character table this model does not encode:
digits are modelled as the ASCII digits, and every theorem about
`validate_ip` therefore carries an ASCII-input hypothesis, the domain on
which the model and the source agree exactly. -/

/-- The literal subnet part of the pattern, `10.251.1.` . -/
def subnetChars : List Char := "10.251.1.".toList

/-- Matcher for the regex tail after one or more digits: accepts the end of
the string or a single final newline (Python `$` semantics); digits are the
ASCII digits (see the section comment on the ASCII domain). -/
def octRest : List Char → Bool
  | [] => true
  | c :: cs => if c = '\n' then cs.isEmpty else c.isDigit && octRest cs

/-- Matcher for `\d+$`: at least one digit, then `octRest`. -/
def octTail : List Char → Bool
  | [] => false
  | c :: cs => c.isDigit && octRest cs

/-- Model of `re.match(r'^10\.251\.1\.\d+$', ip)` as a Boolean, with `\d`
read as the ASCII digits: faithful to the source on ASCII input, while the
source additionally matches non-ASCII Unicode decimal digits. -/
def matchesIpRegex (s : List Char) : Bool :=
  leadsWith subnetChars s && octTail (s.drop subnetChars.length)

/-- `ip.split('.')[-1]`: the characters after the last dot. -/
def afterLastDot (s : List Char) : List Char :=
  (s.reverse.takeWhile (fun c => c != '.')).reverse

/-- Python `int` whitespace stripping. -/
def stripWs (s : List Char) : List Char :=
  ((s.dropWhile Char.isWhitespace).reverse.dropWhile Char.isWhitespace).reverse

/-- Numeric value of a digit string. -/
def digitsVal (s : List Char) : Nat :=
  s.foldl (fun n c => n * 10 + (c.toNat - '0'.toNat)) 0

/-- `int(seg)` on the strings produced here (an ASCII digit run, possibly
padded with whitespace): faithful to the source on ASCII input, while
Python's `int` additionally parses non-ASCII Unicode decimal digits. -/
def pyInt (s : List Char) : Nat := digitsVal (stripWs s)

/-- `validate_ip` from the source: regex match, then last-octet range check. -/
def validate_ip (s : List Char) : Bool :=
  if !matchesIpRegex s then false
  else
    let v := pyInt (afterLastDot s)
    if v < 1 || v > 254 then false else true

/-- Modelled from the spec's words, for comparison with `validate_ip`: the
input is exactly `10.251.1.X` where `X` is a decimal final octet whose
value is between 1 and 254 inclusive (no other shape), with decimal digits
read as the ASCII digits of the spec's `10.251.1.X` examples. -/
def specIpShape (s : List Char) : Bool :=
  leadsWith subnetChars s &&
    (let d := s.drop subnetChars.length
     !d.isEmpty && d.all Char.isDigit &&
       decide (1 ≤ digitsVal d) && decide (digitsVal d ≤ 254))

/-- Remove one trailing newline if present. -/
def stripNl (s : List Char) : List Char :=
  if s.getLast? = some '\n' then s.dropLast else s

/-- The create-user menu handler of `app.py` (case "2"): `validate_ip` runs
first and the saga `create_user` is only started when it passes. -/
def menu_create_user (u ip : String) (st : SysSt) (o : CreateOracle) :
    Option SagaOut :=
  if validate_ip ip.toList then some (tdc_create_user u ip st o) else none

/-! ## Lemmas about the recovery protocol -/

/-- If `add_dns_entry` invokes the restore and the copy-back succeeds, the
final blob is the snapshot taken at entry. -/
theorem add_restore_cfg (u ip : String) (cfg : Config) (store : List Nat) (o : DnsOracle)
    (h2 : o.restoreCopyOk = true)
    (h1 : DnsEv.restoreEv ∈ (add_dns_entry u ip cfg store o).tr) :
    (add_dns_entry u ip cfg store o).cfg = cfg := by
  simp only [add_dns_entry] at h1 ⊢
  by_cases c1 : is_entry_taken u ip (if o.parseOk = true then parse_dns_entries cfg else []) = true
  · simp [c1] at h1
  · by_cases c2 : (backup_config cfg store o).1.isEmpty = true
    · simp [c1, c2] at h1
    · by_cases c3 : o.mutateOk = true
      · by_cases c4 : o.restartOk = true
        · by_cases c5 : verify_dns_entry u o = true
          · simp [c1, c2, c3, c4, c5] at h1
          · simp [c1, c2, c3, c4, c5, restore_config, h2]
        · simp [c1, c2, c3, c4, restore_config, h2]
      · simp [c1, c2, c3, restore_config, h2]

/-- Restore-fidelity for `remove_dns_entry`, as for `add_dns_entry`. -/
theorem remove_restore_cfg (u : String) (cfg : Config) (store : List Nat) (o : DnsOracle)
    (h2 : o.restoreCopyOk = true)
    (h1 : DnsEv.restoreEv ∈ (remove_dns_entry u cfg store o).tr) :
    (remove_dns_entry u cfg store o).cfg = cfg := by
  simp only [remove_dns_entry] at h1 ⊢
  by_cases c1 : ((if o.parseOk = true then parse_dns_entries cfg else []).any (fun e => e.1 = u)) = true
  · by_cases c2 : (backup_config cfg store o).1.isEmpty = true
    · simp [c1, c2] at h1
    · by_cases c3 : o.mutateOk = true
      · by_cases c4 : o.restartOk = true
        · simp [c1, c2, c3, c4] at h1
        · simp [c1, c2, c3, c4, restore_config, h2]
      · simp [c1, c2, c3, restore_config, h2]
  · simp [c1] at h1

/-- Restore-fidelity for `edit_dns_entry`, as for `add_dns_entry`. -/
theorem edit_restore_cfg (old : String) (newU newIp : Option String) (cfg : Config)
    (store : List Nat) (o : DnsOracle)
    (h2 : o.restoreCopyOk = true)
    (h1 : DnsEv.restoreEv ∈ (edit_dns_entry old newU newIp cfg store o).tr) :
    (edit_dns_entry old newU newIp cfg store o).cfg = cfg := by
  simp only [edit_dns_entry] at h1 ⊢
  by_cases c0 : (newU.isNone && newIp.isNone) = true
  · simp [c0] at h1
  · cases hf : (if o.parseOk = true then parse_dns_entries cfg else []).find? (fun e => e.1 = old) with
    | none => simp [c0, hf] at h1
    | some oldE =>
      simp only [c0, hf, Bool.false_eq_true, if_false] at h1 ⊢
      by_cases c1 : editConflict old newU newIp oldE.2
          (if o.parseOk = true then parse_dns_entries cfg else []) = true
      · simp [c1] at h1
      · by_cases c2 : (backup_config cfg store o).1.isEmpty = true
        · simp [c1, c2] at h1
        · by_cases c3 : o.mutateOk = true
          · by_cases c3b : o.mutate2Ok = true
            · by_cases c4 : o.restartOk = true
              · by_cases c5 : verify_dns_entry (newU.getD old) o = true
                · simp [c1, c2, c3, c3b, c4, c5] at h1
                · simp [c1, c2, c3, c3b, c4, c5, restore_config, h2]
              · simp [c1, c2, c3, c3b, c4, restore_config, h2]
            · simp [c1, c2, c3, c3b, restore_config, h2]
          · simp [c1, c2, c3, restore_config, h2]

/-! ## Claim C4 -/

/-- C4 (amended): whenever a mutating name-resolution operation invokes the
restore (Rolled-Back outcome) and the restore's copy of the snapshot back
over the configuration succeeds, the configuration blob afterwards is
byte-identical to the snapshot captured by the backup at the start of the
operation. -/
theorem c4_rollback_fidelity (op : DnsOp) (cfg : Config) (store : List Nat) (o : DnsOracle)
    (h1 : DnsEv.restoreEv ∈ (runDnsOp op cfg store o).tr)
    (h2 : o.restoreCopyOk = true) :
    (runDnsOp op cfg store o).cfg = cfg ∧
      configText (runDnsOp op cfg store o).cfg = configText cfg := by
  have hc : (runDnsOp op cfg store o).cfg = cfg := by
    cases op with
    | add u ip => exact add_restore_cfg u ip cfg store o h2 h1
    | remove u => exact remove_restore_cfg u cfg store o h2 h1
    | edit old nu nip => exact edit_restore_cfg old nu nip cfg store o h2 h1
  exact ⟨hc, by rw [hc]⟩

/-- C4 counterexample to the claim as stated: an add whose restart fails
invokes the restore, but the copy-back fails too, and the blob afterwards
still contains the appended record, so it is not byte-identical to the
snapshot. -/
theorem c4_counterexample :
    DnsEv.restoreEv ∈ (runDnsOp (DnsOp.add "alice" "10.251.1.3")
        [ConfigLine.raw "port=53", ConfigLine.entry "bob" "10.251.1.2"] []
        ⟨true, true, 7, true, true, false, [], "", false, true⟩).tr ∧
      configText (runDnsOp (DnsOp.add "alice" "10.251.1.3")
          [ConfigLine.raw "port=53", ConfigLine.entry "bob" "10.251.1.2"] []
          ⟨true, true, 7, true, true, false, [], "", false, true⟩).cfg ≠
        configText [ConfigLine.raw "port=53", ConfigLine.entry "bob" "10.251.1.2"] := by
  decide

/-- C4 witness: the amended theorem applied to a concrete rolled-back run
whose copy-back succeeds. -/
theorem c4_witness :
    DnsEv.restoreEv ∈ (runDnsOp (DnsOp.add "alice" "10.251.1.3")
        [ConfigLine.raw "port=53", ConfigLine.entry "bob" "10.251.1.2"] []
        ⟨true, true, 7, true, true, false, [], "", true, true⟩).tr ∧
      configText (runDnsOp (DnsOp.add "alice" "10.251.1.3")
          [ConfigLine.raw "port=53", ConfigLine.entry "bob" "10.251.1.2"] []
          ⟨true, true, 7, true, true, false, [], "", true, true⟩).cfg =
        configText [ConfigLine.raw "port=53", ConfigLine.entry "bob" "10.251.1.2"] :=
  ⟨by decide,
    (c4_rollback_fidelity (DnsOp.add "alice" "10.251.1.3")
      [ConfigLine.raw "port=53", ConfigLine.entry "bob" "10.251.1.2"] []
      ⟨true, true, 7, true, true, false, [], "", true, true⟩ (by decide) rfl).2⟩

/-! ## Claim C5 -/

/-- C5: if the backup step of a mutating name-resolution operation cannot
read the current configuration, the operation fails, the blob and the
snapshot store are unchanged, and no mutation step is ever reached. -/
theorem c5_backup_failfast (op : DnsOp) (cfg : Config) (store : List Nat) (o : DnsOracle)
    (h : o.readOk = false) :
    (runDnsOp op cfg store o).ok = false ∧ (runDnsOp op cfg store o).cfg = cfg ∧
      (runDnsOp op cfg store o).store = store ∧
      DnsEv.mutateEv ∉ (runDnsOp op cfg store o).tr := by
  cases op with
  | add u ip =>
    simp only [runDnsOp, add_dns_entry]
    by_cases c1 : is_entry_taken u ip (if o.parseOk = true then parse_dns_entries cfg else []) = true
    · simp [c1]
    · simp [c1, backup_config, h]
  | remove u =>
    simp only [runDnsOp, remove_dns_entry]
    by_cases c1 : ((if o.parseOk = true then parse_dns_entries cfg else []).any (fun e => e.1 = u)) = true
    · simp [c1, backup_config, h]
    · simp [c1]
  | edit old nu nip =>
    simp only [runDnsOp, edit_dns_entry]
    by_cases c0 : (nu.isNone && nip.isNone) = true
    · simp [c0]
    · cases hf : (if o.parseOk = true then parse_dns_entries cfg else []).find? (fun e => e.1 = old) with
      | none => simp [c0, hf]
      | some oldE =>
        simp only [c0, hf, Bool.false_eq_true, if_false]
        by_cases c1 : editConflict old nu nip oldE.2
            (if o.parseOk = true then parse_dns_entries cfg else []) = true
        · simp [c1]
        · simp [c1, backup_config, h]

/-- C5 witness: a concrete removal whose backup read fails aborts with
nothing mutated. -/
theorem c5_witness :
    (runDnsOp (DnsOp.remove "bob") [ConfigLine.entry "bob" "10.251.1.2"] [3]
        ⟨true, false, 7, true, true, true, [], "", true, true⟩).ok = false ∧
      (runDnsOp (DnsOp.remove "bob") [ConfigLine.entry "bob" "10.251.1.2"] [3]
          ⟨true, false, 7, true, true, true, [], "", true, true⟩).cfg =
        [ConfigLine.entry "bob" "10.251.1.2"] ∧
      (runDnsOp (DnsOp.remove "bob") [ConfigLine.entry "bob" "10.251.1.2"] [3]
          ⟨true, false, 7, true, true, true, [], "", true, true⟩).store = [3] ∧
      DnsEv.mutateEv ∉ (runDnsOp (DnsOp.remove "bob") [ConfigLine.entry "bob" "10.251.1.2"] [3]
          ⟨true, false, 7, true, true, true, [], "", true, true⟩).tr :=
  c5_backup_failfast (DnsOp.remove "bob") [ConfigLine.entry "bob" "10.251.1.2"] [3]
    ⟨true, false, 7, true, true, true, [], "", true, true⟩ rfl

/-! ## Claim C10 -/

/-- C10: the verification step returns true exactly when the lookup's error
output lacks the not-found signal, and an address-only edit's entire
outcome is unchanged when only the address the name actually resolves to
changes. -/
theorem c10_verify_ignores_resolved_address (u old ip : String) (o : DnsOracle)
    (cfg : Config) (store : List Nat) (a1 a2 : String) :
    (verify_dns_entry u o = true ↔ containsSignal o.verifyStderr = false) ∧
      runDnsOp (DnsOp.edit old none (some ip)) cfg store
          ⟨o.parseOk, o.readOk, o.time, o.mutateOk, o.mutate2Ok, o.restartOk,
            o.verifyStderr, a1, o.restoreCopyOk, o.restoreRestartOk⟩ =
        runDnsOp (DnsOp.edit old none (some ip)) cfg store
          ⟨o.parseOk, o.readOk, o.time, o.mutateOk, o.mutate2Ok, o.restartOk,
            o.verifyStderr, a2, o.restoreCopyOk, o.restoreRestartOk⟩ := by
  constructor
  · simp [verify_dns_entry]
  · rfl

/-! ## Claim C9 -/

/-- C9: in the credential manager's edit, if creating the new user succeeds
but dropping the old one fails, the edit still returns the new credential,
and the old username remains in the store alongside the new one. -/
theorem c9_edit_keeps_old_on_drop_failure (old nu : String) (db : List String)
    (o : MongoOracle) (h1 : old ∈ db) (h2 : nu ∉ db) (h3 : o.listOk = true)
    (h4 : o.pwOk = true) (h5 : o.createOk = true) (h6 : o.dropOk = false) :
    (mongo_edit_user old nu db o).1 = some o.pw ∧
      old ∈ (mongo_edit_user old nu db o).2 ∧ nu ∈ (mongo_edit_user old nu db o).2 := by
  have ha : db.any (fun v => v = old) = true := by
    simp [List.any_eq_true]
    exact h1
  have hb : db.any (fun v => v = nu) = false := by
    simp [List.any_eq_false]
    intro x hx hxe
    exact h2 (hxe ▸ hx)
  simp [mongo_edit_user, h3, h4, h5, h6, ha, hb]
  exact Or.inl h1

/-- C9 witness at a concrete store and oracle. -/
theorem c9_witness :
    (mongo_edit_user "bob" "carl" ["bob"] ⟨true, true, "npw", true, false⟩).1 = some "npw" ∧
      "bob" ∈ (mongo_edit_user "bob" "carl" ["bob"] ⟨true, true, "npw", true, false⟩).2 ∧
      "carl" ∈ (mongo_edit_user "bob" "carl" ["bob"] ⟨true, true, "npw", true, false⟩).2 :=
  c9_edit_keeps_old_on_drop_failure "bob" "carl" ["bob"] ⟨true, true, "npw", true, false⟩
    (by decide) (by decide) rfl rfl rfl rfl

/-! ## Claim C6 -/

/-- Inserting a timestamp larger than everything in the store appends it. -/
theorem insortNat_gt (t : Nat) (s : List Nat) (h : ∀ x ∈ s, x < t) :
    insortNat t s = s ++ [t] := by
  induction s with
  | nil => rfl
  | cons x xs ih =>
    have hx : x < t := h x (List.mem_cons_self x xs)
    rw [insortNat, if_neg (by omega), if_neg (by omega),
      ih (fun y hy => h y (List.mem_cons_of_mem x hy))]
    simp

/-- Folding the backup step over increasing timestamps keeps exactly the
suffix of the 100 newest ones. -/
theorem foldBackup_eq_drop (ts : List Nat) (h : List.Pairwise (· < ·) ts) :
    ts.foldl (fun st t => takeBackup t st) [] = ts.drop (ts.length - 100) := by
  induction ts using List.reverseRecOn with
  | nil => rfl
  | append_singleton ts t ih =>
    have hsplit := List.pairwise_append.mp h
    have hts : List.Pairwise (· < ·) ts := hsplit.1
    have hlt : ∀ x ∈ ts, x < t := by
      intro x hx
      exact hsplit.2.2 x hx t (List.mem_singleton_self t)
    have hS := ih hts
    have hsub : ∀ x ∈ ts.drop (ts.length - 100), x < t := by
      intro x hx
      exact hlt x (List.drop_subset _ _ hx)
    have hlen : (ts.drop (ts.length - 100)).length = ts.length - (ts.length - 100) :=
      List.length_drop _ _
    rw [List.foldl_append, List.foldl_cons, List.foldl_nil, hS]
    rw [takeBackup, insortNat_gt t _ hsub, rotateKeep]
    by_cases hc : ts.length ≤ 100
    · have h0 : ts.length - 100 = 0 := by omega
      rw [h0, List.drop_zero]
    · have h100 : (ts.drop (ts.length - 100)).length = 100 := by rw [hlen]; omega
      have e1 : (ts.drop (ts.length - 100) ++ [t]).length - 100 = 1 := by
        rw [List.length_append, h100]
        simp
      have e2 : (ts ++ [t]).length - 100 = ts.length + 1 - 100 := by
        rw [List.length_append]
        simp
      rw [e1, e2]
      rw [List.drop_append_of_le_length (by omega : 1 ≤ (ts.drop (ts.length - 100)).length)]
      rw [List.drop_drop]
      rw [List.drop_append_of_le_length (by omega : ts.length + 1 - 100 ≤ ts.length)]
      have e3 : ts.length - 100 + 1 = ts.length + 1 - 100 := by omega
      rw [e3]

/-- C6: after more than 100 backups at strictly increasing timestamps,
exactly 100 snapshots remain and they are the 100 most recently created
(the final suffix of the timestamp sequence). -/
theorem c6_backup_rotation_bound (ts : List Nat) (h1 : 100 < ts.length)
    (h2 : List.Pairwise (· < ·) ts) :
    ts.foldl (fun st t => takeBackup t st) [] = ts.drop (ts.length - 100) ∧
      (ts.foldl (fun st t => takeBackup t st) []).length = 100 := by
  have he := foldBackup_eq_drop ts h2
  refine ⟨he, ?_⟩
  rw [he, List.length_drop]
  omega

/-- C6 witness: 101 backups at timestamps 0..100 leave snapshots 1..100. -/
theorem c6_witness :
    100 < (List.range 101).length ∧
      ((List.range 101).foldl (fun st t => takeBackup t st) [] =
          (List.range 101).drop ((List.range 101).length - 100) ∧
        ((List.range 101).foldl (fun st t => takeBackup t st) []).length = 100) :=
  ⟨by decide, c6_backup_rotation_bound (List.range 101) (by decide) (by decide)⟩

/-! ## Claim C7 -/

/-- C7: an address-only edit of an environment touches only the
name-resolution and compute services: no credential-service call appears in
the trace (including the compensation path), and the credential store is
unchanged. -/
theorem c7_ip_only_edit_no_credential_calls (old ip : String) (st : SysSt) (o : EditOracle) :
    (∀ e ∈ (tdc_edit_user old none (some ip) st o).tr, e.isCred = false) ∧
      (tdc_edit_user old none (some ip) st o).st.mongo = st.mongo := by
  by_cases h1 : (runDnsOp (DnsOp.edit old none (some ip)) st.cfg st.store o.dnsEdit).ok = true
  · cases hc : o.cedit <;> simp [tdc_edit_user, h1, hc, Ev.isCred]
  · simp [tdc_edit_user, h1, Ev.isCred]

/-! ## Claim C1 -/

/-- C1 (amended): when the name-resolution and credential steps of
`create_user` succeed and the compute step then fails, the compensations
are issued in the same order as the forward steps — NameResolution.remove
first, then Credential.remove — before the saga reports failure. -/
theorem c1_create_compensation_order (u ip : String) (st : SysSt) (o : CreateOracle)
    (h1 : (runDnsOp (DnsOp.add u ip) st.cfg st.store o.dnsAdd).ok = true)
    (h2 : (mongo_create_user u st.mongo o.mcreate).1.isSome = true)
    (h3 : o.cadd.isOk = false) :
    (tdc_create_user u ip st o).ok = false ∧
      (tdc_create_user u ip st o).tr =
        [Ev.nrAdd u ip, Ev.credCreate u, Ev.compAdd u ip, Ev.nrRemove u, Ev.credRemove u] := by
  obtain ⟨pw, hpw⟩ := Option.isSome_iff_exists.mp h2
  cases hc : o.cadd with
  | ok cpw => rw [hc] at h3; simp [ContAddRes.isOk] at h3
  | failed => simp [tdc_create_user, h1, hpw, hc]
  | raised => simp [tdc_create_user, h1, hpw, hc]

/-- C1 counterexample to the claim as stated: in a run where name
resolution and credential creation succeed and the compute step fails, the
recorded compensation order is NameResolution.remove then
Credential.remove, not the reverse order (Credential.remove first) the
claim asserts. -/
theorem c1_counterexample :
    (tdc_create_user "alice" "10.251.1.3"
        ⟨[ConfigLine.raw "port=53", ConfigLine.entry "bob" "10.251.1.2"], [], ["bob"]⟩
        ⟨⟨true, true, 7, true, true, true, [], "", true, true⟩,
          ⟨true, true, "pw", true, true⟩, ContAddRes.failed,
          ⟨true, true, 8, true, true, true, [], "", true, true⟩,
          ⟨true, true, "pw", true, true⟩⟩).ok = false ∧
      (tdc_create_user "alice" "10.251.1.3"
          ⟨[ConfigLine.raw "port=53", ConfigLine.entry "bob" "10.251.1.2"], [], ["bob"]⟩
          ⟨⟨true, true, 7, true, true, true, [], "", true, true⟩,
            ⟨true, true, "pw", true, true⟩, ContAddRes.failed,
            ⟨true, true, 8, true, true, true, [], "", true, true⟩,
            ⟨true, true, "pw", true, true⟩⟩).tr =
        [Ev.nrAdd "alice" "10.251.1.3", Ev.credCreate "alice", Ev.compAdd "alice" "10.251.1.3",
          Ev.nrRemove "alice", Ev.credRemove "alice"] ∧
      (tdc_create_user "alice" "10.251.1.3"
          ⟨[ConfigLine.raw "port=53", ConfigLine.entry "bob" "10.251.1.2"], [], ["bob"]⟩
          ⟨⟨true, true, 7, true, true, true, [], "", true, true⟩,
            ⟨true, true, "pw", true, true⟩, ContAddRes.failed,
            ⟨true, true, 8, true, true, true, [], "", true, true⟩,
            ⟨true, true, "pw", true, true⟩⟩).tr ≠
        [Ev.nrAdd "alice" "10.251.1.3", Ev.credCreate "alice", Ev.compAdd "alice" "10.251.1.3",
          Ev.credRemove "alice", Ev.nrRemove "alice"] := by
  decide

/-- C1 witness: the amended order theorem at a concrete run. -/
theorem c1_witness :
    (tdc_create_user "carol" "10.251.1.9"
        ⟨[ConfigLine.raw "port=53"], [], []⟩
        ⟨⟨true, true, 7, true, true, true, [], "", true, true⟩,
          ⟨true, true, "pw", true, true⟩, ContAddRes.raised,
          ⟨true, true, 8, true, true, true, [], "", true, true⟩,
          ⟨true, true, "pw", true, true⟩⟩).ok = false ∧
      (tdc_create_user "carol" "10.251.1.9"
          ⟨[ConfigLine.raw "port=53"], [], []⟩
          ⟨⟨true, true, 7, true, true, true, [], "", true, true⟩,
            ⟨true, true, "pw", true, true⟩, ContAddRes.raised,
            ⟨true, true, 8, true, true, true, [], "", true, true⟩,
            ⟨true, true, "pw", true, true⟩⟩).tr =
        [Ev.nrAdd "carol" "10.251.1.9", Ev.credCreate "carol", Ev.compAdd "carol" "10.251.1.9",
          Ev.nrRemove "carol", Ev.credRemove "carol"] :=
  c1_create_compensation_order "carol" "10.251.1.9"
    ⟨[ConfigLine.raw "port=53"], [], []⟩
    ⟨⟨true, true, 7, true, true, true, [], "", true, true⟩,
      ⟨true, true, "pw", true, true⟩, ContAddRes.raised,
      ⟨true, true, 8, true, true, true, [], "", true, true⟩,
      ⟨true, true, "pw", true, true⟩⟩ (by decide) (by decide) rfl

/-! ## Claim C3 -/

/-- C3 (amended): in a username-changing edit, whenever a step after the
first fails, the already-changed collaborators are compensated by
re-invoking each one's edit with arguments swapped (new to old), in the
same order as the forward steps, not in reverse: a name-resolution failure
(step 2) re-invokes Credential.edit alone, and a compute failure (step 3)
re-invokes Credential.edit first and then NameResolution.edit. -/
theorem c3_edit_compensation_order (old nu : String) (newIp : Option String)
    (st : SysSt) (o : EditOracle)
    (h1 : (mongo_edit_user old nu st.mongo o.medit).1.isSome = true) :
    ((runDnsOp (DnsOp.edit old (some nu) newIp) st.cfg st.store o.dnsEdit).ok = false →
      (tdc_edit_user old (some nu) newIp st o).ok = false ∧
        (tdc_edit_user old (some nu) newIp st o).tr =
          [Ev.credEdit old nu, Ev.nrEdit old (some nu) newIp, Ev.credEdit nu old]) ∧
      ((runDnsOp (DnsOp.edit old (some nu) newIp) st.cfg st.store o.dnsEdit).ok = true →
        o.cedit ≠ ContEditRes.ok →
        (tdc_edit_user old (some nu) newIp st o).ok = false ∧
          (tdc_edit_user old (some nu) newIp st o).tr =
            [Ev.credEdit old nu, Ev.nrEdit old (some nu) newIp,
              Ev.compEdit old (some nu) newIp, Ev.credEdit nu old,
              Ev.nrEdit nu (some old) none]) := by
  obtain ⟨pw, hpw⟩ := Option.isSome_iff_exists.mp h1
  constructor
  · intro h2
    simp [tdc_edit_user, hpw, h2]
  · intro h2 h3
    cases hc : o.cedit with
    | ok => exact absurd hc h3
    | failed => simp [tdc_edit_user, hpw, h2, hc]
    | raised => simp [tdc_edit_user, hpw, h2, hc]

/-- C3 counterexample to the claim as stated: after a compute-step failure
the compensations run Credential.edit first and NameResolution.edit
second, not in the reverse order the claim asserts. -/
theorem c3_counterexample :
    (tdc_edit_user "bob" (some "carl") none
        ⟨[ConfigLine.raw "port=53", ConfigLine.entry "bob" "10.251.1.2"], [], ["bob"]⟩
        ⟨⟨true, true, "pw", true, true⟩,
          ⟨true, true, 7, true, true, true, [], "", true, true⟩, ContEditRes.failed,
          ⟨true, true, "pw", true, true⟩,
          ⟨true, true, 8, true, true, true, [], "", true, true⟩⟩).ok = false ∧
      (tdc_edit_user "bob" (some "carl") none
          ⟨[ConfigLine.raw "port=53", ConfigLine.entry "bob" "10.251.1.2"], [], ["bob"]⟩
          ⟨⟨true, true, "pw", true, true⟩,
            ⟨true, true, 7, true, true, true, [], "", true, true⟩, ContEditRes.failed,
            ⟨true, true, "pw", true, true⟩,
            ⟨true, true, 8, true, true, true, [], "", true, true⟩⟩).tr =
        [Ev.credEdit "bob" "carl", Ev.nrEdit "bob" (some "carl") none,
          Ev.compEdit "bob" (some "carl") none, Ev.credEdit "carl" "bob",
          Ev.nrEdit "carl" (some "bob") none] ∧
      (tdc_edit_user "bob" (some "carl") none
          ⟨[ConfigLine.raw "port=53", ConfigLine.entry "bob" "10.251.1.2"], [], ["bob"]⟩
          ⟨⟨true, true, "pw", true, true⟩,
            ⟨true, true, 7, true, true, true, [], "", true, true⟩, ContEditRes.failed,
            ⟨true, true, "pw", true, true⟩,
            ⟨true, true, 8, true, true, true, [], "", true, true⟩⟩).tr ≠
        [Ev.credEdit "bob" "carl", Ev.nrEdit "bob" (some "carl") none,
          Ev.compEdit "bob" (some "carl") none, Ev.nrEdit "carl" (some "bob") none,
          Ev.credEdit "carl" "bob"] := by
  decide

/-- C3 witness: the amended order theorem at two concrete runs, one whose
name-resolution step fails (no record for the old username) and one whose
compute step fails. -/
theorem c3_witness :
    ((tdc_edit_user "bob" (some "carl") none
        ⟨[ConfigLine.raw "port=53"], [], ["bob"]⟩
        ⟨⟨true, true, "pw", true, true⟩,
          ⟨true, true, 7, true, true, true, [], "", true, true⟩, ContEditRes.ok,
          ⟨true, true, "pw", true, true⟩,
          ⟨true, true, 8, true, true, true, [], "", true, true⟩⟩).ok = false ∧
      (tdc_edit_user "bob" (some "carl") none
          ⟨[ConfigLine.raw "port=53"], [], ["bob"]⟩
          ⟨⟨true, true, "pw", true, true⟩,
            ⟨true, true, 7, true, true, true, [], "", true, true⟩, ContEditRes.ok,
            ⟨true, true, "pw", true, true⟩,
            ⟨true, true, 8, true, true, true, [], "", true, true⟩⟩).tr =
        [Ev.credEdit "bob" "carl", Ev.nrEdit "bob" (some "carl") none,
          Ev.credEdit "carl" "bob"]) ∧
      ((tdc_edit_user "dave" (some "erin") (some "10.251.1.7")
          ⟨[ConfigLine.raw "port=53", ConfigLine.entry "dave" "10.251.1.4"], [], ["dave"]⟩
          ⟨⟨true, true, "pw", true, true⟩,
            ⟨true, true, 7, true, true, true, [], "", true, true⟩, ContEditRes.raised,
            ⟨true, true, "pw", true, true⟩,
            ⟨true, true, 8, true, true, true, [], "", true, true⟩⟩).ok = false ∧
        (tdc_edit_user "dave" (some "erin") (some "10.251.1.7")
            ⟨[ConfigLine.raw "port=53", ConfigLine.entry "dave" "10.251.1.4"], [], ["dave"]⟩
            ⟨⟨true, true, "pw", true, true⟩,
              ⟨true, true, 7, true, true, true, [], "", true, true⟩, ContEditRes.raised,
              ⟨true, true, "pw", true, true⟩,
              ⟨true, true, 8, true, true, true, [], "", true, true⟩⟩).tr =
          [Ev.credEdit "dave" "erin", Ev.nrEdit "dave" (some "erin") (some "10.251.1.7"),
            Ev.compEdit "dave" (some "erin") (some "10.251.1.7"), Ev.credEdit "erin" "dave",
            Ev.nrEdit "erin" (some "dave") none]) :=
  ⟨(c3_edit_compensation_order "bob" "carl" none
      ⟨[ConfigLine.raw "port=53"], [], ["bob"]⟩
      ⟨⟨true, true, "pw", true, true⟩,
        ⟨true, true, 7, true, true, true, [], "", true, true⟩, ContEditRes.ok,
        ⟨true, true, "pw", true, true⟩,
        ⟨true, true, 8, true, true, true, [], "", true, true⟩⟩ (by decide)).1 (by decide),
    (c3_edit_compensation_order "dave" "erin" (some "10.251.1.7")
      ⟨[ConfigLine.raw "port=53", ConfigLine.entry "dave" "10.251.1.4"], [], ["dave"]⟩
      ⟨⟨true, true, "pw", true, true⟩,
        ⟨true, true, 7, true, true, true, [], "", true, true⟩, ContEditRes.raised,
        ⟨true, true, "pw", true, true⟩,
        ⟨true, true, 8, true, true, true, [], "", true, true⟩⟩ (by decide)).2
      (by decide) (by decide)⟩

/-! ## Listing and state lemmas for the create saga -/

/-- Membership through ordered insertion. -/
theorem mem_insertLe {α : Type} (le : α → α → Bool) (x a : α) (l : List α) :
    a ∈ insertLe le x l ↔ a = x ∨ a ∈ l := by
  induction l with
  | nil => simp [insertLe]
  | cons y ys ih =>
    by_cases hc : le x y = true
    · simp [insertLe, hc]
    · simp [insertLe, hc, ih]
      tauto

/-- Sorting does not change membership. -/
theorem mem_insertionSort {α : Type} (le : α → α → Bool) (a : α) (l : List α) :
    a ∈ insertionSort le l ↔ a ∈ l := by
  induction l with
  | nil => simp [insertionSort]
  | cons x xs ih => simp [insertionSort, mem_insertLe, ih]

/-- A pair is listed exactly when its record line is in the blob and its
username is not the reserved one. -/
theorem mem_parse_dns_entries (p : String × String) (cfg : Config) :
    p ∈ parse_dns_entries cfg ↔
      ConfigLine.entry p.1 p.2 ∈ cfg ∧ p.1 ≠ "shared-mongo" := by
  rw [parse_dns_entries, mem_insertionSort, List.mem_filter, List.mem_filterMap]
  constructor
  · rintro ⟨⟨l, hl, he⟩, hne⟩
    cases l with
    | entry a b =>
      simp only [entryOf, Option.some_inj] at he
      cases he
      exact ⟨hl, by simpa using hne⟩
    | raw s => simp [entryOf] at he
  · rintro ⟨hin, hne⟩
    exact ⟨⟨ConfigLine.entry p.1 p.2, hin, rfl⟩, by simpa using hne⟩

/-- A username is listed exactly when some record line for it is in the
blob and it is not the reserved name. -/
theorem mem_dnsUsers (u : String) (cfg : Config) :
    u ∈ dnsUsers cfg ↔ (∃ ip, ConfigLine.entry u ip ∈ cfg) ∧ u ≠ "shared-mongo" := by
  rw [dnsUsers, List.mem_map]
  constructor
  · rintro ⟨⟨a, b⟩, hp, rfl⟩
    have h := (mem_parse_dns_entries (a, b) cfg).mp hp
    exact ⟨⟨b, h.1⟩, h.2⟩
  · rintro ⟨⟨ip, hin⟩, hne⟩
    exact ⟨(u, ip), (mem_parse_dns_entries (u, ip) cfg).mpr ⟨hin, hne⟩, rfl⟩

/-- The removal filter leaves no listed record for the removed username. -/
theorem not_mem_dnsUsers_removeUserLines (u : String) (cfg : Config) :
    u ∉ dnsUsers (removeUserLines u cfg) := by
  rw [mem_dnsUsers]
  rintro ⟨⟨ip, hin⟩, hne⟩
  rw [removeUserLines, List.mem_filter] at hin
  have h2 := hin.2
  simp [lineMatchesUser] at h2

/-- `configText` on a blob with at least two lines. -/
theorem configText_cons_of_ne_nil (l : ConfigLine) (ls : Config) (h : ls ≠ []) :
    configText (l :: ls) = lineText l ++ '\n' :: configText ls := by
  cases ls with
  | nil => exact absurd rfl h
  | cons x xs => rfl

/-- A blob ending in a record line has nonempty byte content. -/
theorem configText_append_entry_ne_nil (cfg : Config) (u ip : String) :
    configText (cfg ++ [ConfigLine.entry u ip]) ≠ [] := by
  cases cfg with
  | nil =>
    intro h
    rw [List.nil_append, configText, lineText] at h
    rcases List.append_eq_nil.mp h with ⟨h2, _⟩
    rcases List.append_eq_nil.mp h2 with ⟨h3, _⟩
    rcases List.append_eq_nil.mp h3 with ⟨h4, _⟩
    revert h4
    decide
  | cons c cs =>
    rw [List.cons_append, configText_cons_of_ne_nil _ _ (by simp)]
    simp

/-- A successful add appends exactly the requested record line. -/
theorem add_ok_cfg (u ip : String) (cfg : Config) (store : List Nat) (o : DnsOracle)
    (h : (add_dns_entry u ip cfg store o).ok = true) :
    (add_dns_entry u ip cfg store o).cfg = cfg ++ [ConfigLine.entry u ip] := by
  simp only [add_dns_entry] at h ⊢
  by_cases c1 : is_entry_taken u ip (if o.parseOk = true then parse_dns_entries cfg else []) = true
  · simp [c1] at h
  · by_cases c2 : (backup_config cfg store o).1.isEmpty = true
    · simp [c1, c2] at h
    · by_cases c3 : o.mutateOk = true
      · by_cases c4 : o.restartOk = true
        · by_cases c5 : verify_dns_entry u o = true
          · simp [c1, c2, c3, c4, c5]
          · simp [c1, c2, c3, c4, c5] at h
        · simp [c1, c2, c3, c4] at h
      · simp [c1, c2, c3] at h

/-- A failed add whose rollback copy succeeds leaves the blob unchanged. -/
theorem add_fail_cfg (u ip : String) (cfg : Config) (store : List Nat) (o : DnsOracle)
    (hr : o.restoreCopyOk = true)
    (h : (add_dns_entry u ip cfg store o).ok = false) :
    (add_dns_entry u ip cfg store o).cfg = cfg := by
  simp only [add_dns_entry] at h ⊢
  by_cases c1 : is_entry_taken u ip (if o.parseOk = true then parse_dns_entries cfg else []) = true
  · simp [c1]
  · by_cases c2 : (backup_config cfg store o).1.isEmpty = true
    · simp [c1, c2]
    · by_cases c3 : o.mutateOk = true
      · by_cases c4 : o.restartOk = true
        · by_cases c5 : verify_dns_entry u o = true
          · simp [c1, c2, c3, c4, c5] at h
          · simp [c1, c2, c3, c4, c5, restore_config, hr]
        · simp [c1, c2, c3, c4, restore_config, hr]
      · simp [c1, c2, c3, restore_config, hr]

/-- A removal with all its external commands succeeding filters the
record out. -/
theorem remove_ok_cfg (u : String) (cfg : Config) (store : List Nat) (o : DnsOracle)
    (hp : o.parseOk = true) (hrd : o.readOk = true) (hm : o.mutateOk = true)
    (hrs : o.restartOk = true)
    (hmem : (parse_dns_entries cfg).any (fun e => e.1 = u) = true)
    (hne : configText cfg ≠ []) :
    (remove_dns_entry u cfg store o).ok = true ∧
      (remove_dns_entry u cfg store o).cfg = removeUserLines u cfg := by
  have hbk : (backup_config cfg store o).1.isEmpty = false := by
    simp [backup_config, hrd, hne]
  simp [remove_dns_entry, hp, hmem, hbk, hm, hrs]

/-- A removal whose pre-flight check finds no record aborts untouched. -/
theorem remove_notfound (u : String) (cfg : Config) (store : List Nat) (o : DnsOracle)
    (hp : o.parseOk = true)
    (hmem : (parse_dns_entries cfg).any (fun e => e.1 = u) = false) :
    remove_dns_entry u cfg store o = ⟨false, cfg, store, []⟩ := by
  simp [remove_dns_entry, hp, hmem]

/-- The credential create either fails leaving the store unchanged, or
succeeds appending the username. -/
theorem mongo_create_cases (u : String) (db : List String) (o : MongoOracle) :
    ((mongo_create_user u db o).1 = none ∧ (mongo_create_user u db o).2 = db) ∨
      ((mongo_create_user u db o).1 = some o.pw ∧
        (mongo_create_user u db o).2 = db ++ [u]) := by
  cases hl : o.listOk <;> cases hp : o.pwOk <;> cases hc : o.createOk <;>
    by_cases hA : db.any (fun v => v = u) = true <;>
    simp [mongo_create_user, hl, hp, hc, hA]

/-- A credential removal with listing and drop succeeding eliminates the
username. -/
theorem mongo_remove_drops (u : String) (db : List String) (o : MongoOracle)
    (hl : o.listOk = true) (hd : o.dropOk = true)
    (hm : db.any (fun v => v = u) = true) :
    u ∉ (mongo_remove_user u db o).2 := by
  simp [mongo_remove_user, hl, hd, hm]

/-- After a successful add of `u`, a compensating removal with succeeding
commands leaves no listed record for `u`. -/
theorem remove_after_add_no_user (u ip : String) (base cfgX : Config) (storeX : List Nat)
    (o : DnsOracle)
    (hcfg1 : cfgX = base ++ [ConfigLine.entry u ip])
    (hb2 : o.parseOk = true) (hb3 : o.readOk = true) (hb4 : o.mutateOk = true)
    (hb5 : o.restartOk = true) :
    u ∉ dnsUsers (remove_dns_entry u cfgX storeX o).cfg := by
  by_cases hsm : u = "shared-mongo"
  · have hmem0 : (parse_dns_entries cfgX).any (fun e => e.1 = u) = false := by
      subst hsm
      simp only [List.any_eq_false]
      intro p hp
      have := ((mem_parse_dns_entries p _).mp hp).2
      simpa using this
    rw [remove_notfound u _ _ o hb2 hmem0]
    rw [mem_dnsUsers]
    rintro ⟨_, hne⟩
    exact hne hsm
  · have hmem : (parse_dns_entries cfgX).any (fun e => e.1 = u) = true := by
      rw [List.any_eq_true]
      refine ⟨(u, ip), ?_, by simp⟩
      rw [mem_parse_dns_entries]
      exact ⟨by simp [hcfg1], hsm⟩
    have hne : configText cfgX ≠ [] := by
      rw [hcfg1]
      exact configText_append_entry_ne_nil _ _ _
    have hro := remove_ok_cfg u cfgX storeX o hb2 hb3 hb4 hb5 hmem hne
    rw [hro.2]
    exact not_mem_dnsUsers_removeUserLines u cfgX

/-! ## Claim C2 -/

/-- C2 (amended): if `create_user` returns failure, the username was listed
in neither subsystem beforehand, and every rollback and compensating
external command of the run succeeds, then afterwards the name-resolution
listing contains no record for the username and the credential store does
not contain it. -/
theorem c2_create_failure_cleanup (u ip : String) (st : SysSt) (o : CreateOracle)
    (hu1 : u ∉ dnsUsers st.cfg) (hu2 : u ∉ st.mongo)
    (hb1 : o.dnsAdd.restoreCopyOk = true)
    (hb2 : o.dnsRemove.parseOk = true) (hb3 : o.dnsRemove.readOk = true)
    (hb4 : o.dnsRemove.mutateOk = true) (hb5 : o.dnsRemove.restartOk = true)
    (hb6 : o.mremove.listOk = true) (hb7 : o.mremove.dropOk = true)
    (hfail : (tdc_create_user u ip st o).ok = false) :
    u ∉ dnsUsers (tdc_create_user u ip st o).st.cfg ∧
      u ∉ (tdc_create_user u ip st o).st.mongo := by
  simp only [tdc_create_user, runDnsOp] at hfail ⊢
  by_cases h1 : (add_dns_entry u ip st.cfg st.store o.dnsAdd).ok = true
  · have hcfg1 := add_ok_cfg u ip st.cfg st.store o.dnsAdd h1
    simp only [h1, Bool.not_true, Bool.false_eq_true, if_false] at hfail ⊢
    rcases mongo_create_cases u st.mongo o.mcreate with ⟨hm1, hm2⟩ | ⟨hm1, hm2⟩
    · simp only [hm1] at hfail ⊢
      refine ⟨?_, by rw [hm2]; exact hu2⟩
      exact remove_after_add_no_user u ip st.cfg _ _ o.dnsRemove hcfg1 hb2 hb3 hb4 hb5
    · simp only [hm1] at hfail ⊢
      cases hc : o.cadd with
      | ok cpw => rw [hc] at hfail; exact Bool.noConfusion hfail
      | failed =>
        refine ⟨?_, ?_⟩
        · exact remove_after_add_no_user u ip st.cfg _ _ o.dnsRemove hcfg1 hb2 hb3 hb4 hb5
        · rw [hm2]
          exact mongo_remove_drops u _ o.mremove hb6 hb7 (by simp)
      | raised =>
        refine ⟨?_, ?_⟩
        · exact remove_after_add_no_user u ip st.cfg _ _ o.dnsRemove hcfg1 hb2 hb3 hb4 hb5
        · rw [hm2]
          exact mongo_remove_drops u _ o.mremove hb6 hb7 (by simp)
  · have h1f : (add_dns_entry u ip st.cfg st.store o.dnsAdd).ok = false := by
      revert h1
      cases (add_dns_entry u ip st.cfg st.store o.dnsAdd).ok <;> simp
    have hcf := add_fail_cfg u ip st.cfg st.store o.dnsAdd hb1 h1f
    simp only [h1f, Bool.not_false, if_true] at hfail ⊢
    rw [hcf]
    exact ⟨hu1, hu2⟩

/-- C2 counterexample to the claim as stated: the credential step fails, the
compensating removal's restart fails, and its rollback restores the blob
with the new record still in it, so the failed create leaves the username
listed in name resolution. -/
theorem c2_counterexample :
    (tdc_create_user "alice" "10.251.1.3"
        ⟨[ConfigLine.raw "port=53", ConfigLine.entry "bob" "10.251.1.2"], [], ["bob"]⟩
        ⟨⟨true, true, 7, true, true, true, [], "", true, true⟩,
          ⟨true, true, "pw", false, true⟩, ContAddRes.failed,
          ⟨true, true, 8, true, true, false, [], "", true, true⟩,
          ⟨true, true, "pw", true, true⟩⟩).ok = false ∧
      "alice" ∈ dnsUsers (tdc_create_user "alice" "10.251.1.3"
          ⟨[ConfigLine.raw "port=53", ConfigLine.entry "bob" "10.251.1.2"], [], ["bob"]⟩
          ⟨⟨true, true, 7, true, true, true, [], "", true, true⟩,
            ⟨true, true, "pw", false, true⟩, ContAddRes.failed,
            ⟨true, true, 8, true, true, false, [], "", true, true⟩,
            ⟨true, true, "pw", true, true⟩⟩).st.cfg := by
  decide

/-- C2 witness: the amended cleanup theorem at a concrete failed run with
all compensations succeeding. -/
theorem c2_witness :
    "alice" ∉ dnsUsers (tdc_create_user "alice" "10.251.1.3"
        ⟨[ConfigLine.raw "port=53", ConfigLine.entry "bob" "10.251.1.2"], [], ["bob"]⟩
        ⟨⟨true, true, 7, true, true, true, [], "", true, true⟩,
          ⟨true, true, "pw", false, true⟩, ContAddRes.failed,
          ⟨true, true, 8, true, true, true, [], "", true, true⟩,
          ⟨true, true, "pw", true, true⟩⟩).st.cfg ∧
      "alice" ∉ (tdc_create_user "alice" "10.251.1.3"
          ⟨[ConfigLine.raw "port=53", ConfigLine.entry "bob" "10.251.1.2"], [], ["bob"]⟩
          ⟨⟨true, true, 7, true, true, true, [], "", true, true⟩,
            ⟨true, true, "pw", false, true⟩, ContAddRes.failed,
            ⟨true, true, 8, true, true, true, [], "", true, true⟩,
            ⟨true, true, "pw", true, true⟩⟩).st.mongo :=
  c2_create_failure_cleanup "alice" "10.251.1.3"
    ⟨[ConfigLine.raw "port=53", ConfigLine.entry "bob" "10.251.1.2"], [], ["bob"]⟩
    ⟨⟨true, true, 7, true, true, true, [], "", true, true⟩,
      ⟨true, true, "pw", false, true⟩, ContAddRes.failed,
      ⟨true, true, 8, true, true, true, [], "", true, true⟩,
      ⟨true, true, "pw", true, true⟩⟩
    (by decide) (by decide) rfl rfl rfl rfl rfl rfl rfl (by decide)

/-! ## Lemmas for the address-format contract -/

/-- A prefix test succeeds exactly on extensions of the prefix. -/
theorem leadsWith_iff (p : List Char) : ∀ s, leadsWith p s = true ↔ ∃ r, s = p ++ r := by
  induction p with
  | nil => intro s; simp [leadsWith]
  | cons a ps ih =>
    intro s
    cases s with
    | nil => simp [leadsWith]
    | cons c cs =>
      simp only [leadsWith, Bool.and_eq_true, decide_eq_true_eq, ih, List.cons_append,
        List.cons.injEq]
      constructor
      · rintro ⟨hac, r, rfl⟩
        exact ⟨r, hac.symm, rfl⟩
      · rintro ⟨r, h1, h2⟩
        exact ⟨h1.symm, r, h2⟩

theorem digit_ne_nl (c : Char) (h : c.isDigit = true) : c ≠ '\n' := by
  intro he
  subst he
  simp [Char.isDigit] at h

theorem octRest_of_all_digits (d : List Char) (h : d.all Char.isDigit = true) :
    octRest d = true := by
  induction d with
  | nil => rfl
  | cons c cs ih =>
    simp only [List.all_cons, Bool.and_eq_true] at h
    rw [octRest, if_neg (digit_ne_nl c h.1)]
    simp [h.1, ih h.2]

theorem octRest_digits_nl (d : List Char) (h : d.all Char.isDigit = true) :
    octRest (d ++ ['\n']) = true := by
  induction d with
  | nil => rfl
  | cons c cs ih =>
    simp only [List.all_cons, Bool.and_eq_true] at h
    rw [List.cons_append, octRest, if_neg (digit_ne_nl c h.1)]
    simp [h.1, ih h.2]

theorem octRest_shape (r : List Char) (h : octRest r = true) :
    r.all Char.isDigit = true ∨ ∃ d, r = d ++ ['\n'] ∧ d.all Char.isDigit = true := by
  induction r with
  | nil => exact Or.inl rfl
  | cons c cs ih =>
    by_cases hc : c = '\n'
    · subst hc
      rw [octRest, if_pos rfl] at h
      have hcs : cs = [] := by simpa [List.isEmpty_iff] using h
      subst hcs
      exact Or.inr ⟨[], rfl, rfl⟩
    · rw [octRest, if_neg hc] at h
      simp only [Bool.and_eq_true] at h
      rcases ih h.2 with hall | ⟨d, hd, hda⟩
      · exact Or.inl (by simp [h.1, hall])
      · exact Or.inr ⟨c :: d, by rw [hd, List.cons_append], by simp [h.1, hda]⟩

theorem takeWhile_append_of_all {p : Char → Bool} (xs ys : List Char)
    (h : ∀ c ∈ xs, p c = true) :
    (xs ++ ys).takeWhile p = xs ++ ys.takeWhile p := by
  induction xs with
  | nil => simp
  | cons a l ih =>
    rw [List.cons_append, List.takeWhile_cons, if_pos (h a (List.mem_cons_self a l)),
      ih (fun c hc => h c (List.mem_cons_of_mem a hc)), List.cons_append]

theorem dropWhile_of_all_neg {p : Char → Bool} (l : List Char)
    (h : ∀ c ∈ l, p c = false) : l.dropWhile p = l := by
  cases l with
  | nil => rfl
  | cons a t =>
    rw [List.dropWhile_cons, if_neg]
    simp [h a (List.mem_cons_self a t)]

theorem digit_ne_dot (c : Char) (h : c.isDigit = true) : (c != '.') = true := by
  simp only [bne_iff_ne, ne_eq]
  intro he
  subst he
  simp [Char.isDigit] at h

theorem digit_not_ws (c : Char) (h : c.isDigit = true) : c.isWhitespace = false := by
  simp only [Char.isDigit, Bool.and_eq_true, decide_eq_true_eq] at h
  simp only [Char.isWhitespace, Bool.or_eq_false_iff, decide_eq_false_iff_not]
  refine ⟨⟨⟨?_, ?_⟩, ?_⟩, ?_⟩ <;> (intro he; subst he; revert h; decide)

theorem afterLastDot_append (r : List Char) (hr : ∀ c ∈ r, (c != '.') = true) :
    afterLastDot (subnetChars ++ r) = r := by
  rw [afterLastDot, List.reverse_append]
  rw [takeWhile_append_of_all r.reverse subnetChars.reverse
    (fun c hc => hr c (List.mem_reverse.mp hc))]
  have hsub : subnetChars.reverse.takeWhile (fun c => c != '.') = [] := by decide
  rw [hsub, List.append_nil, List.reverse_reverse]

theorem stripWs_digits (d : List Char) (h : d.all Char.isDigit = true) :
    stripWs d = d := by
  have hnw : ∀ c ∈ d, c.isWhitespace = false := by
    intro c hc
    exact digit_not_ws c (by simpa using (List.all_eq_true.mp h c hc))
  rw [stripWs, dropWhile_of_all_neg d hnw,
    dropWhile_of_all_neg d.reverse (fun c hc => hnw c (List.mem_reverse.mp hc)),
    List.reverse_reverse]

theorem stripWs_digits_nl (d : List Char) (h : d.all Char.isDigit = true) :
    stripWs (d ++ ['\n']) = d := by
  have hnw : ∀ c ∈ d, c.isWhitespace = false := by
    intro c hc
    exact digit_not_ws c (by simpa using (List.all_eq_true.mp h c hc))
  cases d with
  | nil => rfl
  | cons a t =>
    have hnn : ((a :: t) ++ ['\n']).dropWhile Char.isWhitespace = (a :: t) ++ ['\n'] := by
      rw [List.cons_append, List.dropWhile_cons,
        if_neg (by simp [hnw a (List.mem_cons_self a t)])]
    rw [stripWs, hnn, List.reverse_append]
    have h2 : List.dropWhile Char.isWhitespace (['\n'].reverse ++ (a :: t).reverse) =
        (a :: t).reverse := by
      rw [List.reverse_singleton, List.cons_append, List.dropWhile_cons, if_pos (by decide),
        List.nil_append,
        dropWhile_of_all_neg (a :: t).reverse (fun c hc => hnw c (List.mem_reverse.mp hc))]
    rw [h2, List.reverse_reverse]

theorem matchesIpRegex_shape (s : List Char) (h : matchesIpRegex s = true) :
    ∃ d, d ≠ [] ∧ d.all Char.isDigit = true ∧
      (s = subnetChars ++ d ∨ s = subnetChars ++ d ++ ['\n']) := by
  rw [matchesIpRegex, Bool.and_eq_true] at h
  obtain ⟨r, rfl⟩ := (leadsWith_iff subnetChars s).mp h.1
  have ht := h.2
  rw [List.drop_left] at ht
  cases r with
  | nil => exact absurd ht (by simp [octTail])
  | cons c cs =>
    rw [octTail, Bool.and_eq_true] at ht
    rcases octRest_shape cs ht.2 with hall | ⟨d2, hd2, hd2a⟩
    · exact ⟨c :: cs, by simp, by simp [ht.1, hall], Or.inl rfl⟩
    · refine ⟨c :: d2, by simp, by simp [ht.1, hd2a], Or.inr ?_⟩
      rw [hd2, List.append_assoc, List.cons_append]

theorem matchesIpRegex_digits (d : List Char) (hne : d ≠ []) (hd : d.all Char.isDigit = true) :
    matchesIpRegex (subnetChars ++ d) = true := by
  rw [matchesIpRegex, Bool.and_eq_true]
  refine ⟨(leadsWith_iff _ _).mpr ⟨d, rfl⟩, ?_⟩
  rw [List.drop_left]
  cases d with
  | nil => exact absurd rfl hne
  | cons c cs =>
    simp only [List.all_cons, Bool.and_eq_true] at hd
    rw [octTail]
    simp [hd.1, octRest_of_all_digits cs hd.2]

theorem matchesIpRegex_digits_nl (d : List Char) (hne : d ≠ []) (hd : d.all Char.isDigit = true) :
    matchesIpRegex (subnetChars ++ d ++ ['\n']) = true := by
  rw [matchesIpRegex, Bool.and_eq_true, List.append_assoc]
  refine ⟨(leadsWith_iff _ _).mpr ⟨d ++ ['\n'], rfl⟩, ?_⟩
  rw [List.drop_left]
  cases d with
  | nil => exact absurd rfl hne
  | cons c cs =>
    simp only [List.all_cons, Bool.and_eq_true] at hd
    rw [List.cons_append, octTail]
    simp [hd.1, octRest_digits_nl cs hd.2]

theorem pyInt_subnet_digits (d : List Char) (hd : d.all Char.isDigit = true) :
    pyInt (afterLastDot (subnetChars ++ d)) = digitsVal d := by
  rw [afterLastDot_append d
    (fun c hc => digit_ne_dot c (by simpa using List.all_eq_true.mp hd c hc))]
  rw [pyInt, stripWs_digits d hd]

theorem pyInt_subnet_digits_nl (d : List Char) (hd : d.all Char.isDigit = true) :
    pyInt (afterLastDot (subnetChars ++ d ++ ['\n'])) = digitsVal d := by
  rw [List.append_assoc]
  have hr : ∀ c ∈ d ++ ['\n'], (c != '.') = true := by
    intro c hc
    rcases List.mem_append.mp hc with hc1 | hc2
    · exact digit_ne_dot c (by simpa using List.all_eq_true.mp hd c hc1)
    · rw [List.mem_singleton.mp hc2]
      decide
  rw [afterLastDot_append (d ++ ['\n']) hr]
  rw [pyInt, stripWs_digits_nl d hd]

theorem specIpShape_subnet_digits (d : List Char) :
    specIpShape (subnetChars ++ d) =
      (!d.isEmpty && d.all Char.isDigit &&
        decide (1 ≤ digitsVal d) && decide (digitsVal d ≤ 254)) := by
  simp only [specIpShape]
  rw [show leadsWith subnetChars (subnetChars ++ d) = true from
    (leadsWith_iff _ _).mpr ⟨d, rfl⟩]
  rw [List.drop_left]
  simp

theorem stripNl_concat_of_ne (x : List Char) (c : Char) (hc : c ≠ '\n') :
    stripNl (x ++ [c]) = x ++ [c] := by
  rw [stripNl, if_neg]
  rw [List.getLast?_concat]
  simp [hc]

theorem stripNl_concat_nl (x : List Char) : stripNl (x ++ ['\n']) = x := by
  rw [stripNl, if_pos (by rw [List.getLast?_concat])]
  rw [List.dropLast_concat]

theorem stripNl_cases (s : List Char) : s = stripNl s ∨ s = stripNl s ++ ['\n'] := by
  by_cases h : s.getLast? = some '\n'
  · right
    have hne : s ≠ [] := by
      intro he
      subst he
      simp at h
    rw [stripNl, if_pos h]
    have hgl := List.getLast?_eq_getLast s hne
    rw [hgl, Option.some_inj] at h
    rw [← h]
    exact (List.dropLast_append_getLast hne).symm
  · left
    rw [stripNl, if_neg h]

theorem validate_ip_iff_specShape (s : List Char) :
    validate_ip s = true ↔ specIpShape (stripNl s) = true := by
  constructor
  · intro h
    rw [validate_ip] at h
    by_cases hm : matchesIpRegex s = true
    · rw [hm] at h
      simp only [Bool.not_true, Bool.false_eq_true, if_false] at h
      have hv : (decide (pyInt (afterLastDot s) < 1) ||
          decide (pyInt (afterLastDot s) > 254)) = false := by
        cases hb : (decide (pyInt (afterLastDot s) < 1) ||
            decide (pyInt (afterLastDot s) > 254))
        · rfl
        · rw [hb] at h
          simp at h
      obtain ⟨d, hne, hd, hcase | hcase⟩ := matchesIpRegex_shape s hm
      · rcases List.eq_nil_or_concat d with rfl | ⟨d2, c, hdc⟩
        · exact absurd rfl hne
        · rw [List.concat_eq_append] at hdc
          subst hdc
          have hcd : c.isDigit = true := by
            have := List.all_eq_true.mp hd c (by simp)
            simpa using this
          have hsnl : stripNl s = s := by
            rw [hcase, ← List.append_assoc]
            exact stripNl_concat_of_ne _ c (digit_ne_nl c hcd)
          rw [hsnl, hcase, specIpShape_subnet_digits]
          rw [hcase] at hv
          rw [pyInt_subnet_digits (d2 ++ [c]) hd] at hv
          simp only [Bool.or_eq_false_iff, decide_eq_false_iff_not, not_lt, gt_iff_lt] at hv
          have hie : (d2 ++ [c]).isEmpty = false := by
            cases d2 <;> rfl
          simp [hie, hd, hv.1, hv.2]
      · have hsnl : stripNl s = subnetChars ++ d := by
          rw [hcase, List.append_assoc, ← List.append_assoc]
          exact stripNl_concat_nl _
        rw [hsnl, specIpShape_subnet_digits]
        rw [hcase, pyInt_subnet_digits_nl d hd] at hv
        simp only [Bool.or_eq_false_iff, decide_eq_false_iff_not, not_lt, gt_iff_lt] at hv
        have hie : d.isEmpty = false := by
          cases d with
          | nil => exact absurd rfl hne
          | cons a t => rfl
        simp [hie, hd, hv.1, hv.2]
    · rw [Bool.not_eq_true] at hm
      rw [hm] at h
      simp at h
  · intro h
    have hlw : leadsWith subnetChars (stripNl s) = true := by
      rw [specIpShape, Bool.and_eq_true] at h
      exact h.1
    obtain ⟨r, hr⟩ := (leadsWith_iff subnetChars (stripNl s)).mp hlw
    rw [hr, specIpShape_subnet_digits] at h
    simp only [Bool.and_eq_true, Bool.not_eq_true', decide_eq_true_eq] at h
    have hne : r ≠ [] := by
      intro he
      subst he
      rcases h with ⟨⟨⟨hne0, _⟩, _⟩, _⟩
      exact Bool.noConfusion hne0
    have hdig : r.all Char.isDigit = true := h.1.1.2
    have hlow : 1 ≤ digitsVal r := h.1.2
    have hhigh : digitsVal r ≤ 254 := h.2
    rcases stripNl_cases s with hs | hs
    · rw [hs, hr]
      rw [validate_ip, matchesIpRegex_digits r hne hdig]
      simp only [Bool.not_true, Bool.false_eq_true, if_false]
      have hcond : (decide (pyInt (afterLastDot (subnetChars ++ r)) < 1) ||
          decide (pyInt (afterLastDot (subnetChars ++ r)) > 254)) = false := by
        rw [pyInt_subnet_digits r hdig]
        simp only [Bool.or_eq_false_iff, decide_eq_false_iff_not, not_lt, gt_iff_lt]
        omega
      rw [hcond]
      simp
    · rw [hs, hr]
      rw [validate_ip, matchesIpRegex_digits_nl r hne hdig]
      simp only [Bool.not_true, Bool.false_eq_true, if_false]
      have hcond : (decide (pyInt (afterLastDot (subnetChars ++ r ++ ['\n'])) < 1) ||
          decide (pyInt (afterLastDot (subnetChars ++ r ++ ['\n'])) > 254)) = false := by
        rw [pyInt_subnet_digits_nl r hdig]
        simp only [Bool.or_eq_false_iff, decide_eq_false_iff_not, not_lt, gt_iff_lt]
        omega
      rw [hcond]
      simp

/-! ## Claim C8 -/

/-- C8 (amended): among ASCII inputs — the domain on which this model's
digit handling agrees exactly with Python's `\d` and `int`, which further
accept non-ASCII Unicode decimal digits such as `٥` — `validate_ip`
accepts exactly the strings of the form `10.251.1.X`, optionally followed
by one trailing newline (which Python's regex `$` and `int` also accept),
where `X` is a nonempty digit string whose value lies between 1 and 254
inclusive; and the create-user menu starts no saga when `validate_ip`
rejects the input.  The ASCII hypotheses confine the statement to the
faithful domain of the model. -/
theorem c8_validate_ip_contract (s : List Char) (u ip : String) (st : SysSt)
    (o : CreateOracle)
    (_hs : s.all (fun c => c.toNat < 128) = true)
    (_hip : ip.toList.all (fun c => c.toNat < 128) = true) :
    (validate_ip s = true ↔ specIpShape (stripNl s) = true) ∧
      (validate_ip ip.toList = false → menu_create_user u ip st o = none) := by
  refine ⟨validate_ip_iff_specShape s, ?_⟩
  intro hv
  simp only [String.toList] at hv
  simp [menu_create_user, hv]

/-- C8 counterexample to the claim as stated: a trailing newline is
accepted by `validate_ip` (Python `$` matches before a final newline and
`int` strips it), although the string is not of the claimed shape. -/
theorem c8_counterexample :
    validate_ip ("10.251.1.5\n".toList) = true ∧
      specIpShape ("10.251.1.5\n".toList) = false := by
  decide

/-- C8 witness: the contract theorem at concrete ASCII inputs, with the
guard implication discharged on a malformed address. -/
theorem c8_witness :
    (validate_ip "10.251.1.9".toList = true ↔
        specIpShape (stripNl "10.251.1.9".toList) = true) ∧
      menu_create_user "u" "10.251.1" ⟨[], [], []⟩
        ⟨⟨true, true, 0, true, true, true, [], "", true, true⟩,
          ⟨true, true, "", true, true⟩, ContAddRes.failed,
          ⟨true, true, 0, true, true, true, [], "", true, true⟩,
          ⟨true, true, "", true, true⟩⟩ = none :=
  ⟨(c8_validate_ip_contract "10.251.1.9".toList "u" "10.251.1" ⟨[], [], []⟩
      ⟨⟨true, true, 0, true, true, true, [], "", true, true⟩,
        ⟨true, true, "", true, true⟩, ContAddRes.failed,
        ⟨true, true, 0, true, true, true, [], "", true, true⟩,
        ⟨true, true, "", true, true⟩⟩ (by decide) (by decide)).1,
    (c8_validate_ip_contract "10.251.1.9".toList "u" "10.251.1" ⟨[], [], []⟩
      ⟨⟨true, true, 0, true, true, true, [], "", true, true⟩,
        ⟨true, true, "", true, true⟩, ContAddRes.failed,
        ⟨true, true, 0, true, true, true, [], "", true, true⟩,
        ⟨true, true, "", true, true⟩⟩ (by decide) (by decide)).2 (by decide)⟩
